import Mathlib

/-!
Verification of the Grocify ingredient-matching and recipe-ranking engine.

The definitions below are a shallow embedding of the Python code in
`grocify/inventory/api_utils.py` and `grocify/inventory/views.py`, working on
`List Char` (Python strings are sequences of characters; all inputs of interest
are ASCII).  External HTTP calls are abstracted by an `ApiOutcome` parameter and
the Django cache is modelled as always missing (a cache hit only replays a
previously computed result, so the cache-miss path is the defining one).
-/

/-- ASCII lowercase conversion, as Python `str.lower()` acts on ASCII text. -/
def asciiLowerChar (c : Char) : Char :=
  if 65 ≤ c.toNat && c.toNat ≤ 90 then Char.ofNat (c.toNat + 32) else c

def lowerL (l : List Char) : List Char := l.map asciiLowerChar

/-- Python whitespace for `str.strip`/`str.split`/regex `\s`:
space, tab, newline, carriage return, vertical tab, form feed. -/
def isSpaceChar (c : Char) : Bool :=
  c.toNat == 32 || c.toNat == 9 || c.toNat == 10 || c.toNat == 13 ||
  c.toNat == 11 || c.toNat == 12

/-- Regex `\d`. -/
def isDigitChar (c : Char) : Bool :=
  decide (48 ≤ c.toNat) && decide (c.toNat ≤ 57)

/-- Regex word character `\w` = `[a-zA-Z0-9_]`, used for `\b` boundaries. -/
def isWordChar (c : Char) : Bool :=
  isDigitChar c || (decide (97 ≤ c.toNat) && decide (c.toNat ≤ 122)) ||
  (decide (65 ≤ c.toNat) && decide (c.toNat ≤ 90)) || c.toNat == 95

/-- Python `string.punctuation`: ASCII 33–47, 58–64, 91–96, 123–126. -/
def isPunctChar (c : Char) : Bool :=
  (decide (33 ≤ c.toNat) && decide (c.toNat ≤ 47)) ||
  (decide (58 ≤ c.toNat) && decide (c.toNat ≤ 64)) ||
  (decide (91 ≤ c.toNat) && decide (c.toNat ≤ 96)) ||
  (decide (123 ≤ c.toNat) && decide (c.toNat ≤ 126))

def lstripL (l : List Char) : List Char := l.dropWhile isSpaceChar

def rstripL (l : List Char) : List Char := (l.reverse.dropWhile isSpaceChar).reverse

/-- Python `str.strip()`. -/
def pyStripL (l : List Char) : List Char := rstripL (lstripL l)

/-- `str.translate(str.maketrans('', '', string.punctuation))`: delete punctuation. -/
def removePunctL (l : List Char) : List Char := l.filter (fun c => !(isPunctChar c))

def nullChar : Char := Char.ofNat 0

/-- Python negative indexing `l[-k]` (out-of-range yields a null placeholder;
the call sites below only reach it in range). -/
def pyIndexNeg (l : List Char) (k : Nat) : Char := l.reverse.getD (k - 1) nullChar

/-- State machine for `re.sub(r'\d+\s*', '', s)`: every digit run together
with the following whitespace is removed, scanning left to right.  `skip` is
true while inside the `\s*` tail of a match (where a further digit starts a new
match, so digits and whitespace alike continue to be dropped). -/
def stripDigitRunsGo : Bool → List Char → List Char
  | _, [] => []
  | skip, c :: rest =>
    if isDigitChar c then stripDigitRunsGo true rest
    else if skip && isSpaceChar c then stripDigitRunsGo true rest
    else c :: stripDigitRunsGo false rest

/-- `re.sub(r'\d+\s*', '', s)`. -/
def stripDigitRuns (l : List Char) : List Char := stripDigitRunsGo false l

def boundaryAfterB : List Char → Bool
  | [] => true
  | c :: _ => !(isWordChar c)

/-- One step of `re.sub(rf'\b{word}\b', '', text)` for a fixed nonempty literal
`word = w0 :: wr`: scan left to right; `prevOk` records whether a `\b` holds
before the current position (start of string, or previous original character is
not a word character).  Matches are non-overlapping; scanning resumes after a
removed occurrence with the word's last character as the previous character.
`fuel` bounds the recursion by the input length (a removed occurrence consumes
at least one character, so the fuel never runs out at the call site). -/
def removeWordFuel (w0 : Char) (wr : List Char) : Nat → Bool → List Char → List Char
  | 0, _, l => l
  | _ + 1, _, [] => []
  | fuel + 1, prevOk, c :: rest =>
    if prevOk && (w0 :: wr).isPrefixOf (c :: rest) && boundaryAfterB (rest.drop wr.length) then
      removeWordFuel w0 wr fuel (!(isWordChar ((w0 :: wr).getLastD w0))) (rest.drop wr.length)
    else
      c :: removeWordFuel w0 wr fuel (!(isWordChar c)) rest

/-- `re.sub(rf'\b{word}\b', '', text)` for a literal word. -/
def removeWordL (w : List Char) (l : List Char) : List Char :=
  match w with
  | [] => l
  | w0 :: wr => removeWordFuel w0 wr l.length true l

/-- The Python loops `for word in words: s = re.sub(rf'\b{word}\b', '', s)`. -/
def removeWordsL (ws : List String) (l : List Char) : List Char :=
  ws.foldl (fun acc w => removeWordL w.data acc) l

/-- Accumulator pass for Python `str.split()`: `cur` is the (reversed) word
being collected; a whitespace character emits it when nonempty. -/
def wordsGo (cur : List Char) : List Char → List (List Char)
  | [] => if cur.isEmpty then [] else [cur.reverse]
  | c :: rest =>
    if isSpaceChar c then
      if cur.isEmpty then wordsGo [] rest else cur.reverse :: wordsGo [] rest
    else wordsGo (c :: cur) rest

/-- Python `str.split()` with no argument: split on whitespace runs,
dropping empty pieces. -/
def wordsAux (l : List Char) : List (List Char) := wordsGo [] l

/-- Python substring test `a in b`. -/
def isInfixB (a b : List Char) : Bool := b.tails.any (fun t => a.isPrefixOf t)

/-- Python `b.endswith(a)`. -/
def isSuffixB (a b : List Char) : Bool := a.reverse.isPrefixOf b.reverse

/-- Python list membership `x in xs`. -/
def memL (x : List Char) (xs : List (List Char)) : Bool := xs.any (fun y => x == y)

/-! ### The smart ingredient matcher (`_check_ingredient_match_smart`) -/

/-- Filler words removed by the matcher (api_utils.py lines 711-713). -/
def fillerWords : List String :=
  ["fresh", "dried", "powdered", "ground", "chopped", "sliced", "diced",
   "minced", "grated", "crushed", "whole", "raw", "cooked", "roasted",
   "toasted", "optional", "for garnish", "as needed", "to taste"]

/-- The synonym table of `_check_ingredient_match_smart` (lines 745-782). -/
def synTable : List (String × List String) :=
  [("egg", ["eggs", "anda", "andey"]),
   ("onion", ["onions", "pyaz", "pyaaz"]),
   ("tomato", ["tomatoes", "tamatar"]),
   ("potato", ["potatoes", "aloo", "aaloo"]),
   ("garlic", ["lehsun", "lasan"]),
   ("ginger", ["adrak"]),
   ("yogurt", ["curd", "dahi", "yoghurt"]),
   ("oil", ["tel", "cooking oil"]),
   ("salt", ["namak"]),
   ("sugar", ["chinni", "chini", "shakkar"]),
   ("rice", ["chawal", "chawal"]),
   ("wheat", ["gehun", "atta"]),
   ("lentil", ["dal", "daal", "lentils"]),
   ("chickpea", ["chana", "chhole", "chickpeas"]),
   ("spinach", ["palak"]),
   ("cauliflower", ["gobhi", "phoolgobhi"]),
   ("eggplant", ["baingan", "brinjal", "aubergine"]),
   ("okra", ["bhindi", "lady finger"]),
   ("turmeric", ["haldi"]),
   ("cumin", ["jeera"]),
   ("coriander", ["dhania", "coriander leaves", "cilantro"]),
   ("mustard", ["rai", "mustard seeds"]),
   ("chili", ["mirch", "chilli", "red chili"]),
   ("cardamom", ["elaichi"]),
   ("cinnamon", ["dalchini"]),
   ("clove", ["laung"]),
   ("milk", ["doodh"]),
   ("butter", ["makkhan"]),
   ("paneer", ["cottage cheese"]),
   ("cream", ["malai"]),
   ("flour", ["maida"]),
   ("gram flour", ["besan"]),
   ("fenugreek", ["methi"]),
   ("asafoetida", ["hing"]),
   ("tamarind", ["imli"]),
   ("jaggery", ["gur"])]

/-- The matcher's cleaning of one side (lines 703-720): lowercase and strip,
delete punctuation, remove each filler word as a `\b`-delimited whole word,
strip again. -/
def cleanM (l : List Char) : List Char :=
  pyStripL (removeWordsL fillerWords (removePunctL (pyStripL (lowerL l))))

/-- The synonym loop (lines 784-791). -/
def synonymHit (u r : List Char) : Bool :=
  synTable.any (fun e =>
    (memL u (e.2.map String.data) && memL r (e.2.map String.data)) ||
    (u == e.1.data && memL r (e.2.map String.data)) ||
    (r == e.1.data && memL u (e.2.map String.data)))

/-- The shared-significant-word check (lines 793-802): some word common to both
sides has length > 2 and is not a filler word. -/
def sharedSignificant (u r : List Char) : Bool :=
  (wordsAux u).any (fun w =>
    memL w (wordsAux r) && decide (2 < w.length) &&
    !(memL w (fillerWords.map String.data)))

/-- The decision chain of `_check_ingredient_match_smart` after cleaning
(lines 722-816), with Python's early `return`s rendered as a nested
conditional.  The trailing "special case" blocks for `milk` and `flour`
return `False`, as does the final fall-through. -/
def matchCore (u r : List Char) : Bool :=
  if u == r then true
  else if isInfixB u r &&
      (memL u (wordsAux r) ||
        (isSuffixB u r && (pyIndexNeg r (u.length + 1) == ' '))) then true
  else if isInfixB r u &&
      (memL r (wordsAux u) ||
        (isSuffixB r u && (pyIndexNeg u (r.length + 1) == ' '))) then true
  else if synonymHit u r then true
  else if sharedSignificant u r then true
  else if u == "milk".data &&
      (isInfixB "coconut".data r || isInfixB "almond".data r ||
        isInfixB "soy".data r || isInfixB "oat".data r) then false
  else if u == "milk".data &&
      (isSuffixB " milk".data r && !(r == "milk".data)) then false
  else if u == "flour".data &&
      (isInfixB "wheat".data r || isInfixB "rice".data r ||
        isInfixB "gram".data r || isInfixB "all purpose".data r) then false
  else false

/-- `_check_ingredient_match_smart(user_ingredient, recipe_ingredient)`:
falsy (empty) raw inputs give `False` up front, otherwise both sides are
cleaned and the decision chain runs. -/
def smartMatch (u r : String) : Bool :=
  if u.data == [] || r.data == [] then false
  else matchCore (cleanM u.data) (cleanM r.data)

/-! ### Inventory-name normalization in `get_recipe_suggestions` -/

/-- `ingredient_mappings` of `get_recipe_suggestions` (lines 374-467). -/
def ingredientMappings : List (String × String) :=
  [("milk", "milk"), ("yogurt", "yogurt"), ("curd", "yogurt"), ("dahi", "yogurt"),
   ("cheese", "cheese"), ("paneer", "paneer"), ("butter", "butter"), ("ghee", "ghee"),
   ("cream", "cream"),
   ("egg", "eggs"), ("chicken", "chicken"), ("mutton", "lamb"), ("lamb", "lamb"),
   ("fish", "fish"), ("prawn", "shrimp"), ("shrimp", "shrimp"),
   ("onion", "onion"), ("garlic", "garlic"), ("ginger", "ginger"),
   ("tomato", "tomatoes"), ("potato", "potatoes"), ("aloo", "potatoes"),
   ("carrot", "carrots"), ("gajar", "carrots"), ("cauliflower", "cauliflower"),
   ("gobhi", "cauliflower"), ("spinach", "spinach"), ("palak", "spinach"),
   ("eggplant", "eggplant"), ("baingan", "eggplant"), ("brinjal", "eggplant"),
   ("okra", "okra"), ("bhindi", "okra"), ("beans", "green beans"),
   ("cabbage", "cabbage"), ("peas", "peas"), ("matar", "peas"),
   ("rice", "rice"), ("chawal", "rice"), ("wheat", "wheat"), ("gehun", "wheat"),
   ("lentil", "lentils"), ("dal", "lentils"), ("chickpea", "chickpeas"),
   ("chana", "chickpeas"), ("flour", "flour"), ("atta", "flour"),
   ("besan", "gram flour"),
   ("turmeric", "turmeric"), ("haldi", "turmeric"), ("cumin", "cumin"),
   ("jeera", "cumin"), ("coriander", "coriander"), ("dhania", "coriander"),
   ("mustard", "mustard seeds"), ("rai", "mustard seeds"),
   ("chili", "chili powder"), ("mirch", "chili powder"),
   ("garam masala", "garam masala"), ("cardamom", "cardamom"),
   ("elaichi", "cardamom"), ("cinnamon", "cinnamon"), ("dalchini", "cinnamon"),
   ("clove", "cloves"), ("laung", "cloves"), ("pepper", "black pepper"),
   ("kali mirch", "black pepper"),
   ("salt", "salt"), ("namak", "salt"), ("sugar", "sugar"), ("chinni", "sugar"),
   ("oil", "oil"), ("tel", "oil"),
   ("lemon", "lemon"), ("nimbu", "lemon"), ("mango", "mango"), ("aam", "mango"),
   ("banana", "banana"), ("kela", "banana")]

/-- `measurement_words` of `get_recipe_suggestions` (lines 479-483). -/
def measurementWords : List String :=
  ["kg", "kgs", "gram", "grams", "g", "liter", "liters", "l", "ml",
   "cup", "cups", "tsp", "tbsp", "oz", "pound", "pounds", "lb", "lbs",
   "piece", "pieces", "pc", "pcs", "slice", "slices", "clove", "cloves",
   "bunch", "bunches", "pack", "packs", "bottle", "bottles", "can", "cans",
   "jar", "jars", "packet", "packets", "box", "boxes"]

/-- The cleaning stage of the per-ingredient normalization (lines 473-487):
lowercase and strip, remove digit runs with trailing whitespace, remove each
measurement word as a `\b`-delimited whole word, strip. -/
def normCleanStage (s : String) : String :=
  String.mk (pyStripL (removeWordsL measurementWords (stripDigitRuns (pyStripL (lowerL s.data)))))

/-- The dictionary lookup `ingredient_mappings.get(ingredient_clean, ingredient_clean)`
(line 490). -/
def mapStage (s : String) : String :=
  ((ingredientMappings.find? (fun e => e.1 == s)).map (fun e => e.2)).getD s

/-- The plural strip (lines 493-494): drop a trailing `'s'` when the string is
longer than 3 characters. -/
def stripPluralStage (s : String) : String :=
  match s.data.getLast? with
  | some c => if c == 's' && decide (3 < s.data.length) then String.mk s.data.dropLast else s
  | none => s

/-- The whole per-ingredient normalization pipeline of `get_recipe_suggestions`
(lines 471-496). -/
def normalizeIngredient (s : String) : String :=
  stripPluralStage (mapStage (normCleanStage s))

/-! ### Recipes, the static fallback catalog, and the suggestion pipeline -/

/-- One entry of a recipe's `ingredients` list as the scoring code reads it:
an optional `nameClean` key (present on API-formatted recipes, absent on
fallback recipes) and a `name`. -/
structure RIngredient where
  nameClean : Option String
  name : String
deriving DecidableEq, Repr

/-- A formatted recipe as consumed by the scoring block of
`get_recipe_suggestions`: only the fields that block reads or writes are
modelled (`title` stands in for the identity of the recipe; the display-only
fields are irrelevant to every claim). -/
structure FRecipe where
  title : String
  ingredients : List RIngredient
  matchPct : Option Nat
  matchingIngredients : Option Nat
  totalRecipeIngredients : Option Nat
deriving DecidableEq, Repr

/-- A recipe of the static fallback catalog `INDIAN_RECIPES`
(indian_recipes.py).  Only the identity and the ingredient names take part in
matching and scoring; amounts and units are never read by the engine (the
amounts include the float `0.5` and are display-only). -/
structure StaticRecipe where
  id : String
  title : String
  ingredientNames : List String
deriving DecidableEq, Repr

/-- The static fallback catalog (indian_recipes.py lines 5-51). -/
def INDIAN_RECIPES : List StaticRecipe :=
  [⟨"indian_1", "Vegetable Pulao",
    ["Basmati Rice", "Mixed Vegetables", "Onion", "Ginger Garlic Paste",
     "Garam Masala", "Cumin Seeds", "Oil/Ghee", "Salt"]⟩,
   ⟨"indian_2", "Chana Masala",
    ["Chickpeas", "Onion", "Tomatoes", "Ginger Garlic Paste",
     "Chana Masala Powder", "Turmeric Powder", "Coriander Powder", "Oil"]⟩]

/-- The fallback filter of `get_recipes_by_ingredients` (lines 86-92): keep a
static recipe when any of the first five search ingredients smart-matches any
of its lowercased ingredient names. -/
def fallbackUserHasAny (ingredients : List String) (r : StaticRecipe) : Bool :=
  let recipeIngredients := r.ingredientNames.map (fun n => String.mk (lowerL n.data))
  (ingredients.take 5).any (fun u => recipeIngredients.any (fun ri => smartMatch u ri))

/-- Formatting a static recipe into the common recipe shape
(lines 93-123 and 146-175): fallback ingredients carry no `nameClean` key. -/
def formatFallback (r : StaticRecipe) : FRecipe :=
  ⟨r.title, r.ingredientNames.map (fun n => ⟨none, n⟩), none, none, none⟩

/-- The response dictionary shape: which of the `success`/`error` keys are
present, the recipe list, and the `cached` flag. -/
structure RecipeResponse where
  success : Option Bool
  error : Option String
  recipes : List FRecipe
  cached : Option Bool
deriving DecidableEq, Repr

/-- Outcome of the external Spoonacular calls inside the `try` block of
`get_recipes_by_ingredients` (lines 40-79): either some part of the block
raises, or the API paths produce a (possibly empty) formatted recipe list. -/
inductive ApiOutcome where
  | raises
  | returns (recipes : List FRecipe)
deriving DecidableEq, Repr

/-- `get_recipes_by_ingredients(ingredients, number)` (lines 13-191) with the
network abstracted by `api` and the cache missing.  Empty input returns the
error dictionary of lines 18-22; an exception falls to the handler of lines
140-191 which formats the whole static catalog (first `min number 8` entries);
an empty API result falls to the fallback block of lines 81-123 which keeps the
static recipes passing `fallbackUserHasAny`. -/
def getRecipesByIngredients (api : ApiOutcome) (ingredients : List String)
    (number : Nat) : RecipeResponse :=
  if ingredients.isEmpty then ⟨none, some "No ingredients provided", [], none⟩
  else
    match api with
    | .raises =>
      if !INDIAN_RECIPES.isEmpty then
        ⟨some true, none, (INDIAN_RECIPES.take (min number 8)).map formatFallback,
          some false⟩
      else ⟨none, some "exception", [], none⟩
    | .returns recs =>
      let formatted :=
        if recs.isEmpty && !INDIAN_RECIPES.isEmpty then
          ((INDIAN_RECIPES.take number).filter (fallbackUserHasAny ingredients)).map
            formatFallback
        else recs
      ⟨some true, none, formatted, some false⟩

/-- Accumulator pass for `dedupFirst`: `seen` holds the strings already kept. -/
def dedupGo (seen : List String) : List String → List String
  | [] => []
  | x :: rest =>
    if seen.contains x then dedupGo seen rest else x :: dedupGo (x :: seen) rest

/-- `list(set(mapped_ingredients))` (line 499).  Python's set iteration order
is unspecified; it is modelled as first-occurrence de-duplication, and no
theorem below depends on more than what every iteration order guarantees. -/
def dedupFirst (l : List String) : List String := dedupGo [] l

def basicsList : List String := ["onion", "tomato", "garlic", "ginger"]

/-- One `if spice not in unique_ingredients: unique_ingredients.append(spice)`
block (lines 503-508). -/
def appendIfMissing (x : String) (u : List String) : List String :=
  if u.contains x then u else u ++ [x]

/-- Lines 501-508: when the deduplicated inventory contains a basic, append
each missing common spice, in source order. -/
def addCommonSpices (u : List String) : List String :=
  if basicsList.any (fun b => u.contains b) then
    appendIfMissing "cumin" (appendIfMissing "turmeric" (appendIfMissing "garam masala" u))
  else u

/-- Lines 471-499: lowercase the non-empty item names, normalize each, and
de-duplicate. -/
def uniqueMapped (names : List String) : List String :=
  dedupFirst (((names.filter (fun n => !(n == ""))).map
    (fun n => String.mk (lowerL n.data))).map normalizeIngredient)

/-- `search_ingredients = unique_ingredients[:10]` (line 511) after the
common-spice augmentation. -/
def searchIngredientsOf (names : List String) : List String :=
  (addCommonSpices (uniqueMapped names)).take 10

/-- The ingredient-name extraction of the scoring block (lines 531-535):
keep entries whose `nameClean` or `name` is truthy, and read
`ing.get('nameClean', ing.get('name', ''))`, lowercased. -/
def recipeIngredientNames (r : FRecipe) : List String :=
  (r.ingredients.filter (fun i =>
    (match i.nameClean with
     | some s => !(s == "")
     | none => false) || !(i.name == ""))).map
    (fun i => String.mk (lowerL (i.nameClean.getD i.name).data))

/-- Lines 541-546: number of recipe ingredients smart-matched by some user
ingredient. -/
def countMatches (userSet : List String) (recipeIngs : List String) : Nat :=
  (recipeIngs.filter (fun ri => userSet.any (fun ui => smartMatch ui ri))).length

/-- Lines 537-553: score one recipe; a recipe with no usable ingredients is
not appended to `scored_recipes`.  `int((score / total) * 100)` is modelled as
the exact floor `score * 100 / total` (the Python float computation agrees on
all realistic sizes; no claim depends on the sub-ulp corner). -/
def scoreRecipe (userSet : List String) (r : FRecipe) : Option FRecipe :=
  let ringr := recipeIngredientNames r
  let total := ringr.length
  if 0 < total then
    let score := countMatches userSet ringr
    some ⟨r.title, r.ingredients, some (score * 100 / total), some score, some total⟩
  else none

def sortKey (r : FRecipe) : Nat := r.matchPct.getD 0

/-- Stable insertion into a descending-by-`sortKey` list: the new element goes
after every element with an equal or larger key. -/
def insertByPct (r : FRecipe) : List FRecipe → List FRecipe
  | [] => [r]
  | x :: xs => if sortKey x < sortKey r then r :: x :: xs else x :: insertByPct r xs

/-- Stable descending sort by `match_percentage`.  Python's
`list.sort(key=..., reverse=True)` is a stable sort, and every stable sort with
the same key produces the same list, so stable insertion sort is a faithful
model. -/
def sortByPctDesc (l : List FRecipe) : List FRecipe :=
  l.foldl (fun acc r => insertByPct r acc) []

/-- Lines 525-566: score every candidate, sort by match percentage descending,
keep the recipes at ≥ 20%, and when none remain fall back to the top 8 of the
sorted list. -/
def scoreAndFilter (userSet : List String) (recipes : List FRecipe) : List FRecipe :=
  let scored := recipes.filterMap (scoreRecipe userSet)
  let sorted := sortByPctDesc scored
  let filtered := sorted.filter (fun r => decide (20 ≤ sortKey r))
  if filtered.isEmpty then sorted.take 8 else filtered.take 10

/-- `get_recipe_suggestions(user_items)` (lines 365-568) over the item names,
with the network abstracted by `api`.  An empty search set returns the
error dictionary of lines 513-519; otherwise the recipe data is fetched with
`number=15` and, when recipes are present, rescored and filtered. -/
def getRecipeSuggestions (api : ApiOutcome) (names : List String) : RecipeResponse :=
  let search := searchIngredientsOf names
  if search.isEmpty then ⟨none, some "No ingredients in inventory", [], some true⟩
  else
    let rd := getRecipesByIngredients api search 15
    if rd.recipes.isEmpty then rd
    else ⟨rd.success, rd.error, scoreAndFilter search rd.recipes, rd.cached⟩

/-- The per-ingredient `has_it` test of the `recipe_detail` view
(views.py lines 519-529): plain substring containment in either direction
between the lowercased recipe-ingredient name and each lowercased inventory
item name. -/
def detailHasIt (userNames : List String) (ingredientName : String) : Bool :=
  let userIngredients := userNames.map (fun n => String.mk (lowerL n.data))
  let ingName := String.mk (lowerL ingredientName.data)
  userIngredients.any (fun u => isInfixB u.data ingName.data || isInfixB ingName.data u.data)

/-- Modelled from the spec: the feasibility tiers of §4.5 (at least 80 → High,
50–79 → Medium, below 50 → Low).  The repository computes no feasibility
field, so the tiering comes from the spec's words. -/
inductive Feasibility where
  | High
  | Medium
  | Low
deriving DecidableEq, Repr

def feasibilityOfPct (pct : Nat) : Feasibility :=
  if 80 ≤ pct then .High else if 50 ≤ pct then .Medium else .Low

/-! ### Claims -/

/-- C1: the spec demands `matches("milk", "coconut milk") == false` and
`matches("milk", "2 cups coconut milk") == false`, and the code's own comments
state the same intent, but the whole-word containment check (line 731) returns
`True` before the "special case" veto block (lines 804-815), which is
unreachable for these inputs: the code returns `True` for both. -/
theorem milk_negative_override_dead :
    smartMatch "milk" "coconut milk" = true ∧
    smartMatch "milk" "2 cups coconut milk" = true := by
  constructor <;> rfl

/-- C2 counterexample: the recipe-detail view's `has_it` test and the smart
matcher are not equivalent: for inventory `["milk"]` and recipe ingredient
`"buttermilk"`, the view's substring test says `True` while
`_check_ingredient_match_smart` says `False`. -/
theorem detail_has_it_differs_from_matcher :
    detailHasIt ["milk"] "buttermilk" = true ∧
    smartMatch "milk" "buttermilk" = false := by
  constructor <;> rfl

/-- C3 counterexample: for inventory `["onion", "tomato", "paneer"]` scored
against the static fallback "Chana Masala" (8 ingredients), the pipeline does
not produce `matched_count == 2` with `match_percentage == 25`. -/
theorem chana_masala_not_two_of_eight :
    ((getRecipeSuggestions (ApiOutcome.returns []) ["onion", "tomato", "paneer"]).recipes.filter
        (fun r => r.title == "Chana Masala")).map
      (fun r => (r.matchingIngredients, r.matchPct)) ≠ [(some 2, some 25)] := by
  intro h
  simp only [show ((getRecipeSuggestions (ApiOutcome.returns [])
      ["onion", "tomato", "paneer"]).recipes.filter
        (fun r => r.title == "Chana Masala")).map
      (fun r => (r.matchingIngredients, r.matchPct)) = [(some 3, some 37)] from rfl] at h
  exact absurd h (by decide)

/-- C3 as amended: the pipeline scores "Chana Masala" with `matched_count == 3`
(onion matches Onion, the auto-added turmeric matches Turmeric Powder, and the
auto-added garam masala shares the word "masala" with Chana Masala Powder;
tomato is normalized to "tomatoe" and fails to match Tomatoes) and
`match_percentage == 37`; the feasibility tier of 37% is still Low. -/
theorem chana_masala_actual_score :
    ((getRecipeSuggestions (ApiOutcome.returns []) ["onion", "tomato", "paneer"]).recipes.filter
        (fun r => r.title == "Chana Masala")).map
      (fun r => (r.matchingIngredients, r.matchPct, r.totalRecipeIngredients)) =
      [(some 3, some 37, some 8)] ∧
    feasibilityOfPct 37 = Feasibility.Low := by
  constructor <;> rfl

/-- C4 counterexample: inventory-name normalization is not idempotent:
`normalize("besan") == "gram flour"` (the synonym table maps besan to gram
flour after cleaning), but renormalizing removes the measurement word "gram"
and maps the rest, giving `"flour"`. -/
theorem normalize_not_idempotent_besan :
    normalizeIngredient "besan" = "gram flour" ∧
    normalizeIngredient "gram flour" = "flour" ∧
    normalizeIngredient (normalizeIngredient "besan") ≠ normalizeIngredient "besan" := by
  refine ⟨rfl, rfl, ?_⟩
  intro h
  simp only [show normalizeIngredient "besan" = "gram flour" from rfl,
    show normalizeIngredient "gram flour" = "flour" from rfl] at h
  exact absurd h (by decide)

/-- C4 as amended: normalization is not idempotent in general (a second pass
can change the result, as at `"besan"`); it is idempotent whenever the
normalized form is left fixed by each pipeline stage (cleaning, the synonym
mapping, and the plural strip) — a sufficient condition, not a
characterization: `"egg"` normalizes to the fixed point `"egg"` even though
the mapping stage moves it through `"eggs"`. -/
theorem normalize_idempotent_of_stage_fixed (s : String)
    (h1 : normCleanStage (normalizeIngredient s) = normalizeIngredient s)
    (h2 : mapStage (normalizeIngredient s) = normalizeIngredient s)
    (h3 : stripPluralStage (normalizeIngredient s) = normalizeIngredient s) :
    normalizeIngredient (normalizeIngredient s) = normalizeIngredient s := by
  unfold normalizeIngredient
  unfold normalizeIngredient at h1 h2 h3
  rw [h1, h2, h3]

/-- C4 witness: the amended idempotence theorem applies to `"onion"`. -/
theorem normalize_idempotent_of_stage_fixed_witness :
    normalizeIngredient (normalizeIngredient "onion") = normalizeIngredient "onion" :=
  normalize_idempotent_of_stage_fixed "onion" rfl rfl rfl

/-- C7 counterexample: on an empty inventory the suggestion operation returns
the dictionary `{'error': 'No ingredients in inventory', ...}` — a result
marked with an error message and no success flag, not a successful result. -/
theorem empty_inventory_error_marked :
    (getRecipeSuggestions ApiOutcome.raises []).error = some "No ingredients in inventory" ∧
    (getRecipeSuggestions ApiOutcome.raises []).recipes = [] ∧
    (getRecipeSuggestions ApiOutcome.raises []).success ≠ some true := by
  refine ⟨rfl, rfl, ?_⟩
  intro h
  simp only [show (getRecipeSuggestions ApiOutcome.raises []).success = none from rfl] at h
  exact Option.noConfusion h

/-- C7 as amended: whenever the normalized-and-augmented search set is empty,
the suggestion operation returns (without raising) the fixed error dictionary
with zero recipes, for every outcome of the external sources. -/
theorem empty_search_returns_error_dict (api : ApiOutcome) (names : List String)
    (h : searchIngredientsOf names = []) :
    getRecipeSuggestions api names =
      ⟨none, some "No ingredients in inventory", [], some true⟩ := by
  unfold getRecipeSuggestions
  simp [h]

/-- C7 witness: the amended theorem applies to the empty inventory. -/
theorem empty_search_returns_error_dict_witness :
    getRecipeSuggestions ApiOutcome.raises [] =
      ⟨none, some "No ingredients in inventory", [], some true⟩ :=
  empty_search_returns_error_dict ApiOutcome.raises [] rfl

/-- C9 counterexample: when both sides clean to the empty string the matcher
returns `True` (the exact-equality check compares two empty strings), so
"empty after cleaning on either side ⇒ false" fails. -/
theorem both_empty_after_cleaning_match :
    smartMatch "fresh" "dried" = true ∧
    cleanM "fresh".data = [] ∧ cleanM "dried".data = [] := by
  refine ⟨rfl, rfl, rfl⟩

/-- C5 counterexample: a recipe with zero listed ingredients is not given
`match_percentage == 0` — it is silently dropped from the ranked results (the
scoring loop appends a recipe to `scored_recipes` only when
`total_ingredients > 0`). -/
theorem zero_ingredient_recipe_dropped :
    scoreAndFilter ["onion"] [⟨"Empty", [], none, none, none⟩] = [] := by
  rfl

/-- C6 counterexample: a non-empty candidate list can still produce an empty
result — when every candidate has zero usable ingredients nothing reaches
`scored_recipes`, so both the filtered list and the top-8 fallback are empty. -/
theorem all_unscoreable_candidates_empty_result :
    scoreAndFilter ["tomato"] [⟨"No Ingredient Recipe", [], none, none, none⟩] = [] ∧
    ([⟨"No Ingredient Recipe", [], none, none, none⟩] : List FRecipe) ≠ [] := by
  exact ⟨rfl, by decide⟩

/-- C10 counterexample: with ten distinct normalized inventory items including
"onion", the common spices are appended after position 9 and the
`unique_ingredients[:10]` truncation removes them, so the search-and-scoring
set is not augmented. -/
theorem spice_augmentation_truncated :
    "onion" ∈ uniqueMapped
      ["onion", "salt", "sugar", "oil", "rice", "paneer", "ghee", "butter",
       "cheese", "cream"] ∧
    "turmeric" ∉ searchIngredientsOf
      ["onion", "salt", "sugar", "oil", "rice", "paneer", "ghee", "butter",
       "cheese", "cream"] ∧
    "garam masala" ∉ searchIngredientsOf
      ["onion", "salt", "sugar", "oil", "rice", "paneer", "ghee", "butter",
       "cheese", "cream"] ∧
    "cumin" ∉ searchIngredientsOf
      ["onion", "salt", "sugar", "oil", "rice", "paneer", "ghee", "butter",
       "cheese", "cream"] := by
  refine ⟨?_, ?_, ?_, ?_⟩ <;> decide

/-! ### Helper lemmas -/

theorem length_insertByPct (r : FRecipe) (l : List FRecipe) :
    (insertByPct r l).length = l.length + 1 := by
  induction l with
  | nil => rfl
  | cons x xs ih =>
    simp only [insertByPct]
    split
    · simp
    · simp [ih]

theorem mem_insertByPct (a r : FRecipe) (l : List FRecipe) :
    a ∈ insertByPct r l ↔ a = r ∨ a ∈ l := by
  induction l with
  | nil => simp [insertByPct]
  | cons x xs ih =>
    simp only [insertByPct]
    split
    · simp [List.mem_cons]
    · simp [List.mem_cons, ih]
      tauto

theorem mem_sortFold (l : List FRecipe) (acc : List FRecipe) (a : FRecipe) :
    a ∈ l.foldl (fun acc r => insertByPct r acc) acc ↔ a ∈ acc ∨ a ∈ l := by
  induction l generalizing acc with
  | nil => simp
  | cons x xs ih =>
    simp only [List.foldl_cons]
    rw [ih, mem_insertByPct]
    simp [List.mem_cons]
    tauto

theorem length_sortFold (l : List FRecipe) (acc : List FRecipe) :
    (l.foldl (fun acc r => insertByPct r acc) acc).length = acc.length + l.length := by
  induction l generalizing acc with
  | nil => simp
  | cons x xs ih =>
    simp only [List.foldl_cons]
    rw [ih, length_insertByPct]
    simp only [List.length_cons]
    omega

theorem mem_sortByPctDesc (a : FRecipe) (l : List FRecipe) :
    a ∈ sortByPctDesc l ↔ a ∈ l := by
  unfold sortByPctDesc
  rw [mem_sortFold]
  simp

theorem length_sortByPctDesc (l : List FRecipe) :
    (sortByPctDesc l).length = l.length := by
  unfold sortByPctDesc
  rw [length_sortFold]
  simp

theorem mem_appendIfMissing_self (x : String) (u : List String) :
    x ∈ appendIfMissing x u := by
  unfold appendIfMissing
  split
  · rename_i hc
    exact List.mem_of_elem_eq_true hc
  · exact List.mem_append_right _ (List.mem_singleton.2 rfl)

theorem mem_appendIfMissing_mono (x y : String) (u : List String) (h : y ∈ u) :
    y ∈ appendIfMissing x u := by
  unfold appendIfMissing
  split
  · exact h
  · exact List.mem_append_left _ h

theorem length_appendIfMissing (x : String) (u : List String) :
    (appendIfMissing x u).length ≤ u.length + 1 := by
  unfold appendIfMissing
  split
  · omega
  · simp

theorem isInfixB_iff (a b : List Char) : isInfixB a b = true ↔ a <:+: b := by
  unfold isInfixB
  rw [List.any_eq_true]
  constructor
  · rintro ⟨t, ht, hp⟩
    exact List.infix_iff_prefix_suffix.2
      ⟨t, List.isPrefixOf_iff_prefix.1 hp, (List.mem_tails t b).1 ht⟩
  · intro h
    obtain ⟨t, hp, hs⟩ := List.infix_iff_prefix_suffix.1 h
    exact ⟨t, (List.mem_tails t b).2 hs, List.isPrefixOf_iff_prefix.2 hp⟩

theorem wordsGo_ne_nil (l : List Char) : ∀ (cur w : List Char), w ∈ wordsGo cur l → w ≠ [] := by
  induction l with
  | nil =>
    intro cur w hw
    unfold wordsGo at hw
    split at hw
    · exact absurd hw (List.not_mem_nil w)
    · rename_i hne
      rw [List.mem_singleton] at hw
      subst hw
      intro hx
      rw [List.reverse_eq_nil_iff] at hx
      subst hx
      exact hne rfl
  | cons c rest ih =>
    intro cur w hw
    unfold wordsGo at hw
    split at hw
    · split at hw
      · exact ih [] w hw
      · rename_i hne
        rw [List.mem_cons] at hw
        rcases hw with hw | hw
        · subst hw
          intro hx
          rw [List.reverse_eq_nil_iff] at hx
          subst hx
          exact hne rfl
        · exact ih [] w hw
    · exact ih (c :: cur) w hw

theorem memL_nil_words (l : List Char) : memL [] (wordsAux l) = false := by
  unfold memL
  rw [List.any_eq_false]
  intro w hw
  rw [Bool.not_eq_true, beq_eq_false_iff_ne]
  exact fun hx => wordsGo_ne_nil l [] w hw hx.symm

theorem infixB_nil_left (b : List Char) : isInfixB [] b = true := by
  cases b with
  | nil => rfl
  | cons c t => rfl

theorem infixB_nonempty_nil (a : List Char) (h : a ≠ []) : isInfixB a [] = false := by
  cases a with
  | nil => exact absurd rfl h
  | cons c t => rfl

theorem suffixB_nonempty_nil (a : List Char) (h : a ≠ []) : isSuffixB a [] = false := by
  unfold isSuffixB
  cases ha : a.reverse with
  | nil => exact absurd (by simpa using congrArg List.reverse ha) h
  | cons c t => rfl

theorem pyStrip_last_not_space (l : List Char) (h : pyStripL l ≠ []) :
    isSpaceChar (pyIndexNeg (pyStripL l) 1) = false := by
  unfold pyStripL rstripL at h ⊢
  unfold pyIndexNeg
  rw [List.reverse_reverse]
  have hne : (lstripL l).reverse.dropWhile isSpaceChar ≠ [] := by
    intro hx
    rw [hx] at h
    exact h rfl
  have hhead := List.head?_dropWhile_not isSpaceChar (lstripL l).reverse
  cases hd : (lstripL l).reverse.dropWhile isSpaceChar with
  | nil => exact absurd hd hne
  | cons c w =>
    rw [hd] at hhead
    simpa using hhead

theorem synTable_entries_ne_nil :
    ∀ e ∈ synTable, e.1.data ≠ [] ∧ ∀ s ∈ e.2, s.data ≠ [] := by decide

theorem memL_nil_synList (xs : List String) (hx : ∀ s ∈ xs, s.data ≠ []) :
    memL [] (xs.map String.data) = false := by
  unfold memL
  rw [List.any_eq_false]
  intro y hy
  rw [List.mem_map] at hy
  obtain ⟨s, hs, rfl⟩ := hy
  rw [Bool.not_eq_true, beq_eq_false_iff_ne]
  exact fun hc => hx s hs hc.symm

theorem synonymHit_nil_left (r : List Char) : synonymHit [] r = false := by
  unfold synonymHit
  rw [List.any_eq_false]
  intro e he
  obtain ⟨hbase, hsyns⟩ := synTable_entries_ne_nil e he
  have hm : memL [] (e.2.map String.data) = false := memL_nil_synList e.2 hsyns
  have hb : (([] : List Char) == e.1.data) = false := by
    rw [beq_eq_false_iff_ne]
    exact fun hc => hbase hc.symm
  simp [hm, hb]

theorem synonymHit_nil_right (u : List Char) : synonymHit u [] = false := by
  unfold synonymHit
  rw [List.any_eq_false]
  intro e he
  obtain ⟨hbase, hsyns⟩ := synTable_entries_ne_nil e he
  have hm : memL [] (e.2.map String.data) = false := memL_nil_synList e.2 hsyns
  have hb : (([] : List Char) == e.1.data) = false := by
    rw [beq_eq_false_iff_ne]
    exact fun hc => hbase hc.symm
  simp [hm, hb]

theorem sharedSignificant_nil_left (r : List Char) : sharedSignificant [] r = false := rfl

theorem sharedSignificant_nil_right (u : List Char) : sharedSignificant u [] = false := by
  unfold sharedSignificant
  rw [List.any_eq_false]
  intro w hw
  have hm : memL w (wordsAux []) = false := rfl
  simp [hm]

theorem matchCore_nil_left (r : List Char) (hr : r ≠ [])
    (hlast : isSpaceChar (pyIndexNeg r 1) = false) : matchCore [] r = false := by
  have h1 : (([] : List Char) == r) = false := by
    rw [beq_eq_false_iff_ne]
    exact fun hc => hr hc.symm
  have h2 : memL [] (wordsAux r) = false := memL_nil_words r
  have h3 : (pyIndexNeg r 1 == ' ') = false := by
    rw [beq_eq_false_iff_ne]
    intro hc
    rw [hc] at hlast
    exact absurd hlast (by decide)
  have h4 : isInfixB r [] = false := infixB_nonempty_nil r hr
  have h5 : synonymHit [] r = false := synonymHit_nil_left r
  have h6 : sharedSignificant [] r = false := sharedSignificant_nil_left r
  unfold matchCore
  simp [h1, h2, h3, h4, h5, h6]

theorem matchCore_nil_right (u : List Char) (hu : u ≠ [])
    (hlast : isSpaceChar (pyIndexNeg u 1) = false) : matchCore u [] = false := by
  have h1 : (u == ([] : List Char)) = false := by
    rw [beq_eq_false_iff_ne]
    exact hu
  have h2 : memL [] (wordsAux u) = false := memL_nil_words u
  have h3 : (pyIndexNeg u 1 == ' ') = false := by
    rw [beq_eq_false_iff_ne]
    intro hc
    rw [hc] at hlast
    exact absurd hlast (by decide)
  have h4 : isInfixB u [] = false := infixB_nonempty_nil u hu
  have h5 : synonymHit u [] = false := synonymHit_nil_right u
  have h6 : sharedSignificant u [] = false := sharedSignificant_nil_right u
  have h7 : isInfixB "coconut".data [] = false := infixB_nonempty_nil _ (by decide)
  have h8 : isInfixB "almond".data [] = false := infixB_nonempty_nil _ (by decide)
  have h9 : isInfixB "soy".data [] = false := infixB_nonempty_nil _ (by decide)
  have h10 : isInfixB "oat".data [] = false := infixB_nonempty_nil _ (by decide)
  have h11 : isSuffixB " milk".data [] = false := suffixB_nonempty_nil _ (by decide)
  have h12 : isInfixB "wheat".data [] = false := infixB_nonempty_nil _ (by decide)
  have h13 : isInfixB "rice".data [] = false := infixB_nonempty_nil _ (by decide)
  have h14 : isInfixB "gram".data [] = false := infixB_nonempty_nil _ (by decide)
  have h15 : isInfixB "all purpose".data [] = false := infixB_nonempty_nil _ (by decide)
  unfold matchCore
  simp [h1, h2, h3, h4, h5, h6, h7, h8, h9, h10, h11, h12, h13, h14, h15]

/-- C2 as amended: the detail view's `has_it` flag holds exactly when some
inventory name, lowercased, is a substring of the lowercased recipe-ingredient
name or vice versa — plain bidirectional containment, not the Matcher
algorithm. -/
theorem detail_has_it_substring_characterization (names : List String) (ing : String) :
    detailHasIt names ing = true ↔
      ∃ u ∈ names, lowerL u.data <:+: lowerL ing.data ∨
        lowerL ing.data <:+: lowerL u.data := by
  unfold detailHasIt
  simp only [List.any_map, List.any_eq_true, Function.comp]
  constructor
  · rintro ⟨u, hu, hor⟩
    rw [Bool.or_eq_true] at hor
    refine ⟨u, hu, ?_⟩
    rcases hor with h | h
    · exact Or.inl ((isInfixB_iff _ _).1 h)
    · exact Or.inr ((isInfixB_iff _ _).1 h)
  · rintro ⟨u, hu, hor⟩
    refine ⟨u, hu, ?_⟩
    rw [Bool.or_eq_true]
    rcases hor with h | h
    · exact Or.inl ((isInfixB_iff _ _).2 h)
    · exact Or.inr ((isInfixB_iff _ _).2 h)

/-- C5 as amended: every recipe that survives ranking was scored with a
positive `total_count`; a recipe with zero usable ingredients never appears in
the output (it is dropped rather than given `match_percentage == 0`), and no
recipe reaches the division with `total_count == 0`. -/
theorem ranked_recipes_scored_positive (users : List String) (rs : List FRecipe)
    (r : FRecipe) (h : r ∈ scoreAndFilter users rs) :
    0 < r.totalRecipeIngredients.getD 0 ∧ r.matchPct.isSome = true := by
  simp only [scoreAndFilter] at h
  have hsorted : r ∈ sortByPctDesc (rs.filterMap (scoreRecipe users)) := by
    split at h
    · exact List.mem_of_mem_take h
    · exact List.mem_of_mem_filter (List.mem_of_mem_take h)
  rw [mem_sortByPctDesc] at hsorted
  obtain ⟨a, _, ha⟩ := List.mem_filterMap.1 hsorted
  simp only [scoreRecipe] at ha
  split at ha
  · rename_i hpos
    obtain rfl := Option.some.inj ha
    simpa using hpos
  · exact Option.noConfusion ha

/-- C5 witness: the positive-total theorem applied to a one-recipe ranking. -/
theorem ranked_recipes_scored_positive_witness :
    0 < (FRecipe.mk "X" [⟨none, "onion"⟩] (some 100) (some 1)
      (some 1)).totalRecipeIngredients.getD 0 ∧
    (FRecipe.mk "X" [⟨none, "onion"⟩] (some 100) (some 1)
      (some 1)).matchPct.isSome = true :=
  ranked_recipes_scored_positive ["onion"] [⟨"X", [⟨none, "onion"⟩], none, none, none⟩]
    ⟨"X", [⟨none, "onion"⟩], some 100, some 1, some 1⟩ (by decide)

/-- C6 as amended: the ranking returns a non-empty list whenever some candidate
has at least one usable ingredient (in particular whenever all scored
candidates fall below the 20% threshold, via the top-8 fallback); an empty
result can also arise from a non-empty candidate list in which every recipe has
zero usable ingredients. -/
theorem ranking_nonempty_of_scoreable (users : List String) (rs : List FRecipe)
    (h : ∃ r ∈ rs, recipeIngredientNames r ≠ []) :
    scoreAndFilter users rs ≠ [] := by
  obtain ⟨r, hr, hne⟩ := h
  have hscored : rs.filterMap (scoreRecipe users) ≠ [] := by
    have hsome : (scoreRecipe users r).isSome = true := by
      simp only [scoreRecipe]
      have hpos : 0 < (recipeIngredientNames r).length := List.length_pos.2 hne
      simp [hpos]
    obtain ⟨y, hy⟩ := Option.isSome_iff_exists.1 hsome
    exact List.ne_nil_of_mem (List.mem_filterMap.2 ⟨r, hr, hy⟩)
  have hlen : 0 < (sortByPctDesc (rs.filterMap (scoreRecipe users))).length := by
    rw [length_sortByPctDesc]
    exact List.length_pos.2 hscored
  simp only [scoreAndFilter]
  split
  · intro hcon
    have hl := congrArg List.length hcon
    simp only [List.length_take, List.length_nil] at hl
    omega
  · rename_i hfil
    intro hcon
    have hf : (sortByPctDesc (rs.filterMap (scoreRecipe users))).filter
        (fun r => decide (20 ≤ sortKey r)) ≠ [] := by
      intro hx
      simp [hx] at hfil
    have hl := congrArg List.length hcon
    simp only [List.length_take, List.length_nil] at hl
    have := List.length_pos.2 hf
    omega

/-- C6 witness: the non-empty-ranking theorem applied to a one-recipe candidate
list whose recipe scores 0% (below the 20% threshold). -/
theorem ranking_nonempty_of_scoreable_witness :
    scoreAndFilter [] [⟨"W", [⟨none, "x"⟩], none, none, none⟩] ≠ [] :=
  ranking_nonempty_of_scoreable [] [⟨"W", [⟨none, "x"⟩], none, none, none⟩]
    ⟨⟨"W", [⟨none, "x"⟩], none, none, none⟩, by decide, by decide⟩

/-- C8: when the external source raises or returns no recipes and the static
fallback catalog (concretely non-empty) yields at least one usable recipe, the
result is a success dictionary with a non-empty recipe list — the source
failure is never propagated. -/
theorem source_failure_degradation (api : ApiOutcome) (ings : List String) (number : Nat)
    (hne : ings ≠ []) (hnum : 1 ≤ number)
    (hfail : api = ApiOutcome.raises ∨ api = ApiOutcome.returns [])
    (husable : (INDIAN_RECIPES.take number).filter (fallbackUserHasAny ings) ≠ []) :
    (getRecipesByIngredients api ings number).success = some true ∧
    (getRecipesByIngredients api ings number).error = none ∧
    (getRecipesByIngredients api ings number).recipes ≠ [] := by
  have hie : ings.isEmpty = false := by
    cases ings with
    | nil => exact absurd rfl hne
    | cons a l => rfl
  rcases hfail with hf | hf
  · subst hf
    have hresp : getRecipesByIngredients ApiOutcome.raises ings number =
        ⟨some true, none, (INDIAN_RECIPES.take (min number 8)).map formatFallback,
          some false⟩ := by
      unfold getRecipesByIngredients
      rw [hie]
      rfl
    rw [hresp]
    refine ⟨rfl, rfl, ?_⟩
    intro hcon
    have hl := congrArg List.length hcon
    simp only [List.length_map, List.length_take, List.length_nil] at hl
    have h2 : INDIAN_RECIPES.length = 2 := rfl
    rw [h2] at hl
    omega
  · subst hf
    have hresp : getRecipesByIngredients (ApiOutcome.returns []) ings number =
        ⟨some true, none,
          ((INDIAN_RECIPES.take number).filter (fallbackUserHasAny ings)).map formatFallback,
          some false⟩ := by
      unfold getRecipesByIngredients
      rw [hie]
      rfl
    rw [hresp]
    exact ⟨rfl, rfl, by simpa using husable⟩

/-- C8 witness: the degradation theorem applied to inventory `["onion"]` with
the primary source returning no recipes. -/
theorem source_failure_degradation_witness :
    (getRecipesByIngredients (ApiOutcome.returns []) ["onion"] 10).success = some true ∧
    (getRecipesByIngredients (ApiOutcome.returns []) ["onion"] 10).error = none ∧
    (getRecipesByIngredients (ApiOutcome.returns []) ["onion"] 10).recipes ≠ [] :=
  source_failure_degradation (ApiOutcome.returns []) ["onion"] 10 (by decide) (by decide)
    (Or.inr rfl) (by decide)

/-- C9 as amended: when exactly one side is empty after cleaning the matcher
returns `False` (when both sides are empty it returns `True` instead, by the
exact-equality check). -/
theorem matcher_one_side_empty (u r : String) (hu : u.data ≠ []) (hr : r.data ≠ [])
    (h : (cleanM u.data = [] ∧ cleanM r.data ≠ []) ∨
      (cleanM u.data ≠ [] ∧ cleanM r.data = [])) :
    smartMatch u r = false := by
  unfold smartMatch
  have h1 : (u.data == []) = false := by
    rw [beq_eq_false_iff_ne]
    exact hu
  have h2 : (r.data == []) = false := by
    rw [beq_eq_false_iff_ne]
    exact hr
  rw [h1, h2]
  simp only [Bool.or_false, Bool.false_eq_true, if_false]
  rcases h with ⟨he, hne⟩ | ⟨hne, he⟩
  · rw [he]
    exact matchCore_nil_left _ hne (pyStrip_last_not_space _ hne)
  · rw [he]
    exact matchCore_nil_right _ hne (pyStrip_last_not_space _ hne)

/-- C9 witness: `"fresh"` cleans to empty while `"milk"` does not, so the
matcher returns `False`. -/
theorem matcher_one_side_empty_witness : smartMatch "fresh" "milk" = false :=
  matcher_one_side_empty "fresh" "milk" (by decide) (by decide)
    (Or.inl ⟨rfl, by decide⟩)

/-- C10 as amended: when the deduplicated normalized inventory contains a basic
(onion/tomato/garlic/ginger) and has at most 7 entries, all three common spices
reach the search-and-scoring set; without a basic the set is the unaugmented
first 10 entries.  (With 10 or more entries the appended spices are truncated
away by `[:10]`.) -/
theorem spice_augmentation_within_cap (names : List String) :
    (basicsList.any (fun b => (uniqueMapped names).contains b) = true →
      (uniqueMapped names).length ≤ 7 →
      "garam masala" ∈ searchIngredientsOf names ∧
      "turmeric" ∈ searchIngredientsOf names ∧
      "cumin" ∈ searchIngredientsOf names) ∧
    (basicsList.any (fun b => (uniqueMapped names).contains b) = false →
      searchIngredientsOf names = (uniqueMapped names).take 10) := by
  constructor
  · intro h1 h2
    have hadd : addCommonSpices (uniqueMapped names) =
        appendIfMissing "cumin" (appendIfMissing "turmeric"
          (appendIfMissing "garam masala" (uniqueMapped names))) := by
      unfold addCommonSpices
      rw [h1]
      rfl
    have hlen : (addCommonSpices (uniqueMapped names)).length ≤ 10 := by
      rw [hadd]
      have l1 := length_appendIfMissing "garam masala" (uniqueMapped names)
      have l2 := length_appendIfMissing "turmeric"
        (appendIfMissing "garam masala" (uniqueMapped names))
      have l3 := length_appendIfMissing "cumin"
        (appendIfMissing "turmeric" (appendIfMissing "garam masala" (uniqueMapped names)))
      omega
    have htake : searchIngredientsOf names = addCommonSpices (uniqueMapped names) := by
      unfold searchIngredientsOf
      exact List.take_of_length_le hlen
    rw [htake, hadd]
    refine ⟨?_, ?_, ?_⟩
    · exact mem_appendIfMissing_mono _ _ _ (mem_appendIfMissing_mono _ _ _
        (mem_appendIfMissing_self _ _))
    · exact mem_appendIfMissing_mono _ _ _ (mem_appendIfMissing_self _ _)
    · exact mem_appendIfMissing_self _ _
  · intro h
    unfold searchIngredientsOf addCommonSpices
    rw [h]
    rfl

/-- C10 witness: for inventory `["onion"]` (one basic, well under the cap) all
three spices are added to the search set. -/
theorem spice_augmentation_within_cap_witness :
    "garam masala" ∈ searchIngredientsOf ["onion"] ∧
    "turmeric" ∈ searchIngredientsOf ["onion"] ∧
    "cumin" ∈ searchIngredientsOf ["onion"] :=
  (spice_augmentation_within_cap ["onion"]).1 (by decide) (by decide)
